import Mathlib

set_option maxRecDepth 100000

/-!
Shallow embedding of the configv2 repository (src/config/path.py,
src/config/configuration.py, src/config/containers.py).

Paths are immutable sequences of heterogeneous keys; a Configuration is an
insertion-ordered mapping from paths to append-only lists of prioritized
entries.  Machine-level Python details that the claims depend on are modelled
explicitly: Python `bool` is a subtype of `int` (so `isinstance(part, int)` is
true for booleans), `priority or self.active_priority` treats 0 as falsy,
`collections.defaultdict` inserts a fresh empty list on every read miss, and
negative-index slicing `parts[-0:]` denotes the whole tuple.

CPython floats appear only as opaque literal carriers: no claim computes with
float values, so a float is represented by its decimal rendering (CPython's
shortest round-trip repr, which is injective on floats).
-/

/-- Model of a CPython float used as a Path key.  Only its decimal rendering
is relevant to the claims settled here, so the model carries that rendering
(the string CPython prints for the float, e.g. "1.5"; inside a complex repr
CPython drops a trailing ".0", so complex components carry that short form). -/
structure PyFloat where
  lit : String
deriving DecidableEq, Repr

/-- The heterogeneous key variants a Path may hold, from path.py: Python str
(identifiers, quoted strings and fallback tokens all arrive as str), int,
bool, float, complex, None, slice objects with optional integer bounds, and
tuples of keys.  Slice bounds are `Option Int` because the grammar only
admits optional integer bounds. -/
inductive Key where
  | str (s : String)
  | int (n : Int)
  | bool (b : Bool)
  | float (f : PyFloat)
  | complex (re im : PyFloat)
  | noneVal
  | slice (start stop step : Option Int)
  | tuple (ks : List Key)

/-- Python `==` on ints and bools: True == 1 and False == 0. -/
def pyBoolInt (b : Bool) : Int := if b then 1 else 0

/-- Python `==` between a float and an int, on the string carrier: a float
equals an int when it is that integer value; CPython prints such floats (in
the ranges occurring here) as the integer digits followed by ".0", or as the
bare digits inside a complex repr. -/
def pyFloatIntEq (f : PyFloat) (n : Int) : Bool :=
  f.lit == toString n ++ ".0" || f.lit == toString n

mutual

/-- Python `==` on keys (the equality used by Path.__eq__ via tuple
comparison and by dict lookups): structural on same-kind keys, with numeric
unification between int and bool; float-int unification goes through the
string carrier.  Cross-kind comparisons of non-numeric keys are False. -/
def pyKeyEq : Key → Key → Bool
  | Key.str a, Key.str b => a == b
  | Key.int a, Key.int b => a == b
  | Key.int a, Key.bool b => a == pyBoolInt b
  | Key.bool a, Key.int b => pyBoolInt a == b
  | Key.bool a, Key.bool b => a == b
  | Key.int a, Key.float f => pyFloatIntEq f a
  | Key.float f, Key.int a => pyFloatIntEq f a
  | Key.bool a, Key.float f => pyFloatIntEq f (pyBoolInt a)
  | Key.float f, Key.bool a => pyFloatIntEq f (pyBoolInt a)
  | Key.float a, Key.float b => a.lit == b.lit
  | Key.complex a b, Key.complex c d => a.lit == c.lit && b.lit == d.lit
  | Key.noneVal, Key.noneVal => true
  | Key.slice a b c, Key.slice d e f => a == d && b == e && c == f
  | Key.tuple as, Key.tuple bs => pyKeyListEq as bs
  | _, _ => false

/-- Elementwise Python `==` on key sequences (tuple comparison). -/
def pyKeyListEq : List Key → List Key → Bool
  | [], [] => true
  | a :: as, b :: bs => pyKeyEq a b && pyKeyListEq as bs
  | _, _ => false

end

/-- A Path is the (immutable) sequence of its parts. -/
abbrev PyPath := List Key

/-- Path.__eq__: parts tuples compared with Python `==`. -/
def pyPathEq (p q : PyPath) : Bool := pyKeyListEq p q

/-- Python slicing `t[i:]` on a sequence, for an `int` start index: a
negative index counts from the end (clamped at 0), a nonnegative one from the
front (clamped at the length).  Note `-0 = 0`, so `t[-0:]` is the whole
sequence — exactly what `parts[-len(self):]` computes for an empty path. -/
def pyDropFrom (l : List Key) (i : Int) : List Key :=
  if i < 0 then l.drop (l.length - min (Int.toNat (-i)) l.length)
  else l.drop (min (Int.toNat i) l.length)

/-- Path.is_prefix_of: `self.parts == other.parts[: len(self)]`. -/
def is_prefix_of (self other : PyPath) : Bool :=
  pyKeyListEq self (other.take self.length)

/-- Path.is_suffix_of: `self.parts == other.parts[-len(self):]`, with
Python's negative-slice semantics (so `-0` slices the whole tuple). -/
def is_suffix_of (self other : PyPath) : Bool :=
  pyKeyListEq self (pyDropFrom other (-(self.length : Int)))

/-- Path.is_compatible_with: the two parts tuples agree (Python `==`) up to
the shorter length. -/
def is_compatible_with (self other : PyPath) : Bool :=
  let e := min self.length other.length
  pyKeyListEq (self.take e) (other.take e)

/-- The ASCII apostrophe character (the quote CPython prefers in str repr and
the quote format_part hard-codes around non-identifier string keys). -/
def squote : Char := Char.ofNat 39

/-- The ASCII double-quote character. -/
def dquote : Char := Char.ofNat 34

/-- One-character string holding the apostrophe. -/
def squoteStr : String := String.singleton squote

/-- ASCII model of str.isidentifier: nonempty, first character a letter or
underscore, the rest letters, digits or underscores.  (CPython additionally
admits non-ASCII identifier characters; the claims settled here only involve
ASCII keys.) -/
def pyIsIdentifier (s : String) : Bool :=
  match s.data with
  | [] => false
  | c :: cs => (c.isAlpha || c == '_') && cs.all (fun d => d.isAlphanum || d == '_')

/-- Python str() of an optional slice bound: the empty string stands for an
omitted (None) bound in Path.format_part's join, which drops None parts. -/
def optIntStr : Option Int → String
  | Option.none => ""
  | some n => toString n

/-- `str.replace(" ", "")`: removing every space character. -/
def removeSpaces (s : String) : String :=
  String.mk (s.data.filter (fun c => !(c == ' ')))

/-- CPython str/repr of a complex number: a pure-imaginary (real component
rendered "0") prints as `imj`; otherwise `(re+imj)` with the plus sign
omitted when the imaginary component carries its own minus sign.  Components
are the short renderings CPython uses inside a complex repr ("1" for 1.0). -/
def pyComplexStr (re im : PyFloat) : String :=
  if re.lit == "0" then im.lit ++ "j"
  else
    let sign := match im.lit.data with
      | '-' :: _ => ""
      | _ => "+"
    "(" ++ re.lit ++ sign ++ im.lit ++ "j)"

/-- CPython repr of a str: quote-wrapped with backslash escapes; the single
quote is preferred unless the string contains one and no double quote.
(Non-printable escapes are out of scope: keys here are printable ASCII.) -/
def pyStrRepr (s : String) : String :=
  let q := if s.data.contains squote && !(s.data.contains dquote) then dquote else squote
  let body := s.data.foldr
    (fun c acc => if c == '\\' || c == q then '\\' :: c :: acc else c :: acc) []
  String.mk (q :: body ++ [q])

mutual

/-- CPython repr of a key, as used for elements inside a tuple's str():
strings are quote-wrapped, slices print as `slice(start, stop, step)`,
tuples recurse with `", "` separators and the singleton trailing comma. -/
def pyRepr : Key → String
  | Key.str s => pyStrRepr s
  | Key.int n => toString n
  | Key.bool b => if b then "True" else "False"
  | Key.float f => f.lit
  | Key.complex re im => pyComplexStr re im
  | Key.noneVal => "None"
  | Key.slice a b c =>
      let o : Option Int → String := fun x => match x with
        | Option.none => "None"
        | some n => toString n
      "slice(" ++ o a ++ ", " ++ o b ++ ", " ++ o c ++ ")"
  | Key.tuple ks =>
      "(" ++ pyReprJoin ks ++ (if ks.length == 1 then ",)" else ")")

/-- Comma-space separated reprs of a tuple's elements. -/
def pyReprJoin : List Key → String
  | [] => ""
  | [k] => pyRepr k
  | k :: ks => pyRepr k ++ ", " ++ pyReprJoin ks

end

/-- Python str() of a key, the `str(part)` in format_part's fallback branch:
identical to repr for every non-string kind (a tuple's str is its repr). -/
def pyStr : Key → String
  | Key.str s => s
  | k => pyRepr k

/-- Path.format_part: an identifier string renders as `.name`, any other
string as `['...']` (no escaping is applied), a slice as `[start:stop]` or
`[start:stop:step]` with omitted bounds dropped, and everything else as
`[str(part)]` with all spaces removed. -/
def format_part : Key → String
  | Key.str s =>
      if pyIsIdentifier s then "." ++ s
      else "[" ++ squoteStr ++ s ++ squoteStr ++ "]"
  | Key.slice a b c =>
      let stepPart := match c with
        | Option.none => ""
        | some n => ":" ++ toString n
      "[" ++ optIntStr a ++ ":" ++ optIntStr b ++ stepPart ++ "]"
  | k => "[" ++ removeSpaces (pyStr k) ++ "]"

/-- Path.__repr__: the concatenated formatted parts, with a leading dot
stripped. -/
def pathRepr (p : PyPath) : String :=
  let r := String.join (p.map format_part)
  match r.data with
  | '.' :: rest => String.mk rest
  | _ => r

/-- Result of trying one alternative of the grammar's `key` rule: the token
did not match (the next alternative is tried), the token matched but its
transformer raised (parsing aborts, as a Lark transformer exception ends
from_str), or a key was produced. -/
inductive KeyRes where
  | noMatch
  | failed
  | ok (k : Key)

/-- Word characters, the ASCII reading of the `/\w+/` identifier token. -/
def isWordChar (c : Char) : Bool := c.isAlphanum || c == '_'

/-- Longest word-character run at the front of the input. -/
def spanWord (cs : List Char) : List Char × List Char :=
  (cs.takeWhile isWordChar, cs.dropWhile isWordChar)

/-- Value of one hexadecimal digit, if any. -/
def hexDigitVal (c : Char) : Option Nat :=
  if c.isDigit then some (c.toNat - 48)
  else if 'a' ≤ c && c ≤ 'f' then some (c.toNat - 87)
  else if 'A' ≤ c && c ≤ 'F' then some (c.toNat - 55)
  else Option.none

/-- Digits of the given base folded into a number; fails on a non-digit or an
empty digit string (literal_eval raises on `0x` with no digits). -/
def foldDigits (base : Nat) : List Char → Option Nat
  | [] => Option.none
  | cs => cs.foldl
      (fun acc c =>
        match acc, hexDigitVal c with
        | some a, some d => if d < base then some (a * base + d) else Option.none
        | _, _ => Option.none)
      (some 0)

/-- The DEC_NUMBER token `0|-?[1-9]\d*` as a full match. -/
def decMatch : List Char → Option Int
  | ['0'] => some 0
  | '-' :: c :: cs =>
      if '1' ≤ c && c ≤ '9' && cs.all Char.isDigit then
        (foldDigits 10 (c :: cs)).map (fun n => -(n : Int))
      else Option.none
  | c :: cs =>
      if '1' ≤ c && c ≤ '9' && cs.all Char.isDigit then
        (foldDigits 10 (c :: cs)).map (fun n => (n : Int))
      else Option.none
  | _ => Option.none

/-- A based literal `-? 0<tag> digits*` (HEX/OCT/BIN tokens): the token
admits zero digits, in which case literal_eval raises, reported as
KeyRes.failed by the caller. -/
def basedMatch (tagLow tagUp : Char) (base : Nat) : List Char → Option (Option Int)
  | '-' :: '0' :: t :: ds =>
      if t == tagLow || t == tagUp then
        some ((foldDigits base ds).map (fun n => -(n : Int)))
      else Option.none
  | '0' :: t :: ds =>
      if t == tagLow || t == tagUp then
        some ((foldDigits base ds).map (fun n => (n : Int)))
      else Option.none
  | _ => Option.none

/-- The `integer` rule (priority 3): DEC, HEX, OCT or BIN token as a full
match, transformed by literal_eval. -/
def parseIntStep (cs : List Char) : KeyRes :=
  match decMatch cs with
  | some n => KeyRes.ok (Key.int n)
  | Option.none =>
    match basedMatch 'x' 'X' 16 cs with
    | some (some n) => KeyRes.ok (Key.int n)
    | some Option.none => KeyRes.failed
    | Option.none =>
      match basedMatch 'o' 'O' 8 cs with
      | some (some n) => KeyRes.ok (Key.int n)
      | some Option.none => KeyRes.failed
      | Option.none =>
        match basedMatch 'b' 'B' 2 cs with
        | some (some n) => KeyRes.ok (Key.int n)
        | some Option.none => KeyRes.failed
        | Option.none => KeyRes.noMatch

/-- The FLOAT_NUMBER token as a full match:
`-?((\d+\.\d*|\.\d+|\d+)(e[-+]?\d+)?|\d+(e[-+]?\d+))`. -/
def floatMatch (cs : List Char) : Bool :=
  let body := match cs with
    | '-' :: rest => rest
    | rest => rest
  let mantissaOk : List Char → Bool := fun m =>
    let intPart := m.takeWhile Char.isDigit
    let rest := m.dropWhile Char.isDigit
    match rest with
    | [] => !intPart.isEmpty
    | '.' :: frac => !intPart.isEmpty && frac.all Char.isDigit
        || intPart.isEmpty && !frac.isEmpty && frac.all Char.isDigit
    | _ => false
  let expOk : List Char → Bool := fun e =>
    match e with
    | '+' :: ds => !ds.isEmpty && ds.all Char.isDigit
    | '-' :: ds => !ds.isEmpty && ds.all Char.isDigit
    | ds => !ds.isEmpty && ds.all Char.isDigit
  match body.splitOn 'e' with
  | [_] =>
      match body.splitOn 'E' with
      | [m1] => mantissaOk m1
      | [m1, e1] => mantissaOk m1 && expOk e1
      | _ => false
  | [m, e] => mantissaOk m && expOk e
  | _ => false

/-- The IMAG_NUMBER token as a full match: `-?\d+j` or FLOAT followed by
`j` (case-insensitive j). -/
def imagMatch (cs : List Char) : Bool :=
  match cs.getLast? with
  | some c =>
      if c == 'j' || c == 'J' then
        let body := cs.dropLast
        (match body with
         | '-' :: ds => !ds.isEmpty && ds.all Char.isDigit
         | ds => !ds.isEmpty && ds.all Char.isDigit)
        || floatMatch body
      else false
  | Option.none => false

/-- Drop the trailing j of a matched IMAG token, keeping its own sign. -/
def imagBody (cs : List Char) : String := String.mk cs.dropLast

/-- The `complex_value` rule (priority 2): `[FLOAT /[+-]/] IMAG`.  A bare
IMAG is a pure imaginary (real component "0").  With an explicit sign
separator, an IMAG that carries its own sign makes the joined literal
unreadable by Python's complex() (a transformer error → failed). -/
def parseComplexStep (cs : List Char) : KeyRes :=
  if imagMatch cs then KeyRes.ok (Key.complex ⟨"0"⟩ ⟨imagBody cs⟩)
  else
    let rec go (pre post : List Char) : KeyRes :=
      match post with
      | [] => KeyRes.noMatch
      | c :: rest =>
          if (c == '+' || c == '-') && floatMatch pre && imagMatch rest then
            match rest with
            | '-' :: _ => KeyRes.failed
            | _ =>
                let im := if c == '-' then "-" ++ imagBody rest else imagBody rest
                KeyRes.ok (Key.complex ⟨String.mk pre⟩ ⟨im⟩)
          else go (pre ++ [c]) rest
    go [] cs

/-- The `float_value` rule (priority 2): a full FLOAT token, its literal kept
as the float's carrier. -/
def parseFloatStep (cs : List Char) : KeyRes :=
  if floatMatch cs then KeyRes.ok (Key.float ⟨String.mk cs⟩) else KeyRes.noMatch

/-- Split on every colon (slice bounds never contain colons). -/
def splitColons (cs : List Char) : List (List Char) := cs.splitOn ':'

/-- One optional slice bound: empty means omitted, else an `integer` token
(whose empty-digit based forms abort, as in parseIntStep). -/
def sliceBound (cs : List Char) : KeyRes ⊕ Option Int :=
  match cs with
  | [] => Sum.inr Option.none
  | _ =>
    match parseIntStep cs with
    | KeyRes.ok (Key.int n) => Sum.inr (some n)
    | KeyRes.failed => Sum.inl KeyRes.failed
    | _ => Sum.inl KeyRes.noMatch

/-- The `slice_key` rule (priority 2): `[integer] ":" [integer] [":"
[integer]]`, i.e. one or two colons with optional integer bounds; a slice
with one colon has step None (slice(a, b) equals slice(a, b, None)). -/
def parseSliceStep (cs : List Char) : KeyRes :=
  match splitColons cs with
  | [a, b] =>
      (match sliceBound a, sliceBound b with
       | Sum.inr x, Sum.inr y => KeyRes.ok (Key.slice x y Option.none)
       | Sum.inl KeyRes.failed, _ => KeyRes.failed
       | _, Sum.inl KeyRes.failed => KeyRes.failed
       | _, _ => KeyRes.noMatch)
  | [a, b, c] =>
      (match sliceBound a, sliceBound b, sliceBound c with
       | Sum.inr x, Sum.inr y, Sum.inr z => KeyRes.ok (Key.slice x y z)
       | Sum.inl KeyRes.failed, _, _ => KeyRes.failed
       | _, Sum.inl KeyRes.failed, _ => KeyRes.failed
       | _, _, Sum.inl KeyRes.failed => KeyRes.failed
       | _, _, _ => KeyRes.noMatch)
  | _ => KeyRes.noMatch

/-- The `string` rule: a full quoted token, lazily closed at the first
unescaped matching quote; the transformer strips only the outer quotes,
keeping any backslash escapes verbatim. -/
def parseStringStep (cs : List Char) : KeyRes :=
  match cs with
  | q :: rest =>
      if q == squote || q == dquote then
        let rec scan (acc : List Char) (r : List Char) : KeyRes :=
          match r with
          | [] => KeyRes.noMatch
          | '\\' :: d :: r' => scan (acc ++ ['\\', d]) r'
          | ['\\'] => KeyRes.noMatch
          | c :: r' =>
              if c == q then
                match r' with
                | [] => KeyRes.ok (Key.str (String.mk acc))
                | _ => KeyRes.noMatch
              else scan (acc ++ [c]) r'
        scan [] rest
      else KeyRes.noMatch
  | [] => KeyRes.noMatch

/-- The `other` fallback token `/[^"'.\]\s]+/`: a nonempty run free of
quotes, dots, closing brackets and whitespace, taken as a literal string. -/
def otherMatch (cs : List Char) : Bool :=
  !cs.isEmpty && cs.all (fun c =>
    !(c == squote) && !(c == dquote) && !(c == '.') && !(c == ']') && !c.isWhitespace)

/-- Splits the body of a parenthesized tuple into its top-level
comma-separated items, tracking nested parentheses and quoted strings; the
body must end at its matching close paren with nothing after it.  Returns
the items and whether a trailing top-level comma preceded the close. -/
def splitTupleBody (cs : List Char) : Option (List (List Char) × Bool) :=
  let rec go (depth : Nat) (quote : Option Char) (esc : Bool)
      (acc : List Char) (items : List (List Char)) :
      List Char → Option (List (List Char) × Bool)
    | [] => Option.none
    | c :: rest =>
      match quote with
      | some q =>
          if esc then go depth (some q) false (acc ++ [c]) items rest
          else if c == '\\' then go depth (some q) true (acc ++ [c]) items rest
          else if c == q then go depth Option.none false (acc ++ [c]) items rest
          else go depth (some q) false (acc ++ [c]) items rest
      | Option.none =>
          if c == '(' then go (depth + 1) Option.none false (acc ++ [c]) items rest
          else if c == ')' then
            match depth with
            | 0 =>
                (match rest with
                 | [] =>
                     if acc.isEmpty then some (items, !items.isEmpty)
                     else some (items ++ [acc], false)
                 | _ => Option.none)
            | d + 1 => go d Option.none false (acc ++ [c]) items rest
          else if c == ',' && depth == 0 then
            go 0 Option.none false [] (items ++ [acc]) rest
          else if c == squote || c == dquote then
            go depth (some c) false (acc ++ [c]) items rest
          else go depth Option.none false (acc ++ [c]) items rest
  go 0 Option.none false [] [] cs

/-- Checks the tuple_key arity rules: `"()"`, `"(" key ",)"`, or
`"(" key ("," key)+ [","] ")"` — a one-item tuple needs its trailing comma,
two or more items may have one. -/
def tupleArityOk (n : Nat) (trailing : Bool) : Bool :=
  n == 0 && !trailing || n == 1 && trailing || n ≥ 2

/-- The grammar's `?key` rule over a full bracket (or tuple-item) content
(left summand), and the item list of a tuple (right summand, each item
parsed as a key — an item that is no key makes the tuple alternative fail,
the fallback token may still cover the whole).  Alternatives are tried in
the Lark priority order: integer (3); then the priority-2 rules complex,
float, slice, None, booleans (pairwise disjoint on full matches); then
string, tuple and the `other` fallback.  An alternative whose token matched
but whose transformer raised aborts the parse.  The fuel only bounds the
recursion into tuple items; every recursive call strictly shrinks the
combined content, so `length + 1` fuel never runs out. -/
def parseKeyAux : Nat → List Char ⊕ List (List Char) → Option (Key ⊕ List Key)
  | 0, _ => Option.none
  | _ + 1, Sum.inr [] => some (Sum.inr [])
  | fuel + 1, Sum.inr (item :: rest) =>
      (match parseKeyAux fuel (Sum.inl item) with
       | some (Sum.inl k) =>
           (match parseKeyAux fuel (Sum.inr rest) with
            | some (Sum.inr ks) => some (Sum.inr (k :: ks))
            | _ => Option.none)
       | _ => Option.none)
  | fuel + 1, Sum.inl cs =>
  match parseIntStep cs with
  | KeyRes.ok k => some (Sum.inl k)
  | KeyRes.failed => Option.none
  | KeyRes.noMatch =>
  match parseComplexStep cs with
  | KeyRes.ok k => some (Sum.inl k)
  | KeyRes.failed => Option.none
  | KeyRes.noMatch =>
  match parseFloatStep cs with
  | KeyRes.ok k => some (Sum.inl k)
  | KeyRes.failed => Option.none
  | KeyRes.noMatch =>
  match parseSliceStep cs with
  | KeyRes.ok k => some (Sum.inl k)
  | KeyRes.failed => Option.none
  | KeyRes.noMatch =>
  if cs == "None".data then some (Sum.inl Key.noneVal)
  else if cs == "True".data then some (Sum.inl (Key.bool true))
  else if cs == "False".data then some (Sum.inl (Key.bool false))
  else
  match parseStringStep cs with
  | KeyRes.ok k => some (Sum.inl k)
  | KeyRes.failed => Option.none
  | KeyRes.noMatch =>
  match cs with
  | '(' :: body =>
      (match splitTupleBody body with
       | some (items, trailing) =>
           if tupleArityOk items.length trailing then
             match parseKeyAux fuel (Sum.inr items) with
             | some (Sum.inr ks) => some (Sum.inl (Key.tuple ks))
             | _ => if otherMatch cs then some (Sum.inl (Key.str (String.mk cs))) else Option.none
           else if otherMatch cs then some (Sum.inl (Key.str (String.mk cs))) else Option.none
       | Option.none => if otherMatch cs then some (Sum.inl (Key.str (String.mk cs))) else Option.none)
  | _ => if otherMatch cs then some (Sum.inl (Key.str (String.mk cs))) else Option.none

/-- One full key parse, with content-sized fuel (always sufficient). -/
def parseKey (cs : List Char) : Option Key :=
  match parseKeyAux (cs.length + 1) (Sum.inl cs) with
  | some (Sum.inl k) => some k
  | _ => Option.none

/-- Reads a bracketed key's raw content: everything up to the first `]` that
is outside a quoted string (strings are entered at a quote and left at the
matching unescaped quote).  Returns the content and the input after the
closing bracket. -/
def extractBracket : List Char → Option Char → Bool → List Char →
    Option (List Char × List Char)
  | [], _, _, _ => Option.none
  | c :: rest, some q, esc, acc =>
      if esc then extractBracket rest (some q) false (acc ++ [c])
      else if c == '\\' then extractBracket rest (some q) true (acc ++ [c])
      else if c == q then extractBracket rest Option.none false (acc ++ [c])
      else extractBracket rest (some q) false (acc ++ [c])
  | c :: rest, Option.none, _, acc =>
      if c == ']' then some (acc, rest)
      else if c == squote || c == dquote then
        extractBracket rest (some c) false (acc ++ [c])
      else extractBracket rest Option.none false (acc ++ [c])

/-- The segment loop of the `path` rule: after the leading identifier, each
further segment is `.` followed by an identifier or `[` key `]`. -/
def segLoop : Nat → List Char → List Key → Option (List Key)
  | _, [], acc => some acc
  | 0, _ :: _, _ => Option.none
  | fuel + 1, '.' :: rest, acc =>
      let (w, rest') := spanWord rest
      if w.isEmpty then Option.none
      else segLoop fuel rest' (acc ++ [Key.str (String.mk w)])
  | fuel + 1, '[' :: rest, acc =>
      (match extractBracket rest Option.none false [] with
       | some (content, rest') =>
           (match parseKey content with
            | some k => segLoop fuel rest' (acc ++ [k])
            | Option.none => Option.none)
       | Option.none => Option.none)
  | _ + 1, _ :: _, _ => Option.none

/-- Path.from_str: parse a textual path with the Lark grammar of path.py and
transform it with PathTransformer.  The empty string is the empty path; a
nonempty path starts with a `/\w+/` identifier.  Parse (or transformer)
failure is None. -/
def from_str (s : String) : Option PyPath :=
  match s.data with
  | [] => some []
  | cs =>
      let (w, rest) := spanWord cs
      if w.isEmpty then Option.none
      else segLoop (cs.length + 1) rest [Key.str (String.mk w)]

/-- Python exception kinds raised by the modelled code paths. -/
inductive PyErr where
  | keyError
  | indexError
  | typeError (msg : String)
  | valueError
  | assertionError
deriving Repr

/-- Python values flowing through the configuration tree: leaves (int, str,
bool, float, None) and the containers dict, list and tuple.  Dicts are
insertion-ordered key/value association lists, as CPython dicts are; the
Path-aware wrapper classes of containers.py convert plain containers on
entry, so one Value type covers both. -/
inductive Value where
  | int (n : Int)
  | str (s : String)
  | bool (b : Bool)
  | float (f : PyFloat)
  | noneV
  | list (xs : List Value)
  | tuple (xs : List Value)
  | dict (kvs : List (Key × Value))

/-- Python list index normalization: a negative index counts from the end;
out of range is None (an IndexError at use sites). -/
def pyIndex (len : Nat) (i : Int) : Option Nat :=
  let i' := if i < 0 then i + len else i
  if 0 ≤ i' && i' < len then some i'.toNat else Option.none

/-- One bound of a basic (step-None) slice, as CPython clamps it. -/
def pyBasicBound (len : Nat) (dflt : Nat) : Option Int → Nat
  | Option.none => dflt
  | some i => if i < 0 then Int.toNat (max 0 ((len : Int) + i)) else min i.toNat len

/-- CPython PySlice_AdjustIndices for one bound of an extended slice: lower
is -1 (resp. len-1) for a negative step, 0 (resp. len) otherwise. -/
def pyAdjustBound (len : Nat) (negStep : Bool) (dflt : Int) : Option Int → Int
  | Option.none => dflt
  | some i =>
      let i' := if i < 0 then i + len else i
      if i' < 0 then (if negStep then -1 else 0)
      else if i' ≥ len then (if negStep then (len : Int) - 1 else len)
      else i'

/-- Indices selected by an extended slice, in selection order. -/
def collectIdx : Nat → Int → Int → Int → List Nat
  | 0, _, _, _ => []
  | fuel + 1, i, stop, step =>
      if (0 < step && i < stop) || (step < 0 && stop < i) then
        i.toNat :: collectIdx fuel (i + step) stop step
      else []

/-- The index list of a slice over a sequence of the given length: None for a
zero step (ValueError); a missing step means step 1. -/
def pySliceIdx (len : Nat) (start stop step : Option Int) : Option (List Nat) :=
  let st := match step with
    | Option.none => 1
    | some s => s
  if st == 0 then Option.none
  else
    let neg := st < 0
    let lo := pyAdjustBound len neg (if neg then (len : Int) - 1 else 0) start
    let hi := pyAdjustBound len neg (if neg then -1 else (len : Int)) stop
    some (collectIdx (len + 1) lo hi st)

/-- Subscript read on a Python list/tuple: integer (or bool) index with
negative-index handling, or a slice producing a new sequence. -/
def seqSubscript (mk : List Value → Value) (xs : List Value) : Key → Except PyErr Value
  | Key.int n =>
      (match pyIndex xs.length n with
       | some i => Except.ok (xs.getD i Value.noneV)
       | Option.none => Except.error PyErr.indexError)
  | Key.bool b =>
      (match pyIndex xs.length (pyBoolInt b) with
       | some i => Except.ok (xs.getD i Value.noneV)
       | Option.none => Except.error PyErr.indexError)
  | Key.slice a b c =>
      (match pySliceIdx xs.length a b c with
       | some idxs => Except.ok (mk (idxs.map (fun i => xs.getD i Value.noneV)))
       | Option.none => Except.error PyErr.valueError)
  | _ => Except.error (PyErr.typeError "indices must be integers or slices")

/-- Subscript read, `value[key]` for one plain (non-Path) key. -/
def getItem : Value → Key → Except PyErr Value
  | Value.dict kvs, k =>
      (match k with
       | Key.slice _ _ _ => Except.error (PyErr.typeError "unhashable type")
       | _ =>
         match kvs.find? (fun kv => pyKeyEq kv.fst k) with
         | some kv => Except.ok kv.snd
         | Option.none => Except.error PyErr.keyError)
  | Value.list xs, k => seqSubscript Value.list xs k
  | Value.tuple xs, k => seqSubscript Value.tuple xs k
  | Value.str s, k =>
      (match k with
       | Key.int n =>
           (match pyIndex s.length n with
            | some i => Except.ok (Value.str (String.mk [s.data.getD i ' ']))
            | Option.none => Except.error PyErr.indexError)
       | Key.slice a b c =>
           (match pySliceIdx s.length a b c with
            | some idxs => Except.ok (Value.str (String.mk (idxs.map (fun i => s.data.getD i ' '))))
            | Option.none => Except.error PyErr.valueError)
       | _ => Except.error (PyErr.typeError "string indices must be integers"))
  | _, _ => Except.error (PyErr.typeError "object is not subscriptable")

/-- The elements a Python iterable contributes to a list-slice assignment;
non-iterable right-hand sides are a TypeError. -/
def iterElems : Value → Except PyErr (List Value)
  | Value.list xs => Except.ok xs
  | Value.tuple xs => Except.ok xs
  | Value.str s => Except.ok (s.data.map (fun c => Value.str (String.mk [c])))
  | _ => Except.error (PyErr.typeError "can only assign an iterable")

/-- List slice assignment: a basic (step-None) slice splices the new
elements over the clamped range; an extended slice requires exactly as many
elements as it selects and replaces them positionally. -/
def listSliceAssign (xs : List Value) (a b c : Option Int) (v : Value) :
    Except PyErr (List Value) :=
  match iterElems v with
  | Except.error e => Except.error e
  | Except.ok els =>
    match c with
    | Option.none =>
        let i := pyBasicBound xs.length 0 a
        let j := max i (pyBasicBound xs.length xs.length b)
        Except.ok (xs.take i ++ els ++ xs.drop j)
    | some _ =>
        match pySliceIdx xs.length a b c with
        | Option.none => Except.error PyErr.valueError
        | some idxs =>
            if els.length == idxs.length then
              Except.ok ((idxs.zip els).foldl (fun l p => l.set p.fst p.snd) xs)
            else Except.error PyErr.valueError

/-- Subscript write, `value[key] = v` for one plain key.  CPython dicts keep
the first-inserted key object on overwrite; PathTuple forbids item
assignment (its `__setitem__` is None). -/
def setItem : Value → Key → Value → Except PyErr Value
  | Value.dict kvs, k, v =>
      (match k with
       | Key.slice _ _ _ => Except.error (PyErr.typeError "unhashable type")
       | _ =>
         if (kvs.find? (fun kv => pyKeyEq kv.fst k)).isSome then
           Except.ok (Value.dict (kvs.map (fun kv =>
             if pyKeyEq kv.fst k then (kv.fst, v) else kv)))
         else Except.ok (Value.dict (kvs ++ [(k, v)])))
  | Value.list xs, k, v =>
      (match k with
       | Key.int n =>
           (match pyIndex xs.length n with
            | some i => Except.ok (Value.list (xs.set i v))
            | Option.none => Except.error PyErr.indexError)
       | Key.bool b =>
           (match pyIndex xs.length (pyBoolInt b) with
            | some i => Except.ok (Value.list (xs.set i v))
            | Option.none => Except.error PyErr.indexError)
       | Key.slice a b c =>
           (match listSliceAssign xs a b c v with
            | Except.ok ys => Except.ok (Value.list ys)
            | Except.error e => Except.error e)
       | _ => Except.error (PyErr.typeError "indices must be integers or slices"))
  | Value.tuple _, _, _ => Except.error (PyErr.typeError "tuple does not support item assignment")
  | _, _, _ => Except.error (PyErr.typeError "object does not support item assignment")

/-- True for the containers that carry the PathMixin (PathDict, PathList,
PathTuple): only these accept Path-based item access. -/
def isPathContainer : Value → Bool
  | Value.dict _ => true
  | Value.list _ => true
  | Value.tuple _ => true
  | _ => false

/-- PathMixin.__getitem__ with a Path key: the empty path returns the value
itself; otherwise descend by the first key and recurse on the rest.  A
non-container reached with path left over is a TypeError (a plain leaf takes
no Path subscript). -/
def getPath : Value → PyPath → Except PyErr Value
  | v, [] => Except.ok v
  | v, first :: rest =>
      if isPathContainer v then
        match getItem v first with
        | Except.error e => Except.error e
        | Except.ok inner =>
            match rest with
            | [] => Except.ok inner
            | _ => getPath inner rest
      else Except.error (PyErr.typeError "object is not subscriptable")

/-- PathMixin.__setitem__ with a Path key (default=None, the to_dict case):
a one-key path assigns directly; a longer path reads the child under the
first key, assigns the rest into it, and — modelling CPython's in-place
mutation of the shared child object — writes the updated child back.  (For a
slice-valued first key CPython's child read returns a shallow copy, so
depth-1 updates under a mid-path slice would be lost there; no claim settled
here exercises a mid-path slice.)  An empty Path raises IndexError from
`key[0]`. -/
def setPath : Value → PyPath → Value → Except PyErr Value
  | _, [], _ => Except.error PyErr.indexError
  | self, [first], v => setItem self first v
  | self, first :: rest, v =>
      match getItem self first with
      | Except.error e => Except.error e
      | Except.ok inner =>
          match setPath inner rest v with
          | Except.error e => Except.error e
          | Except.ok inner' => setItem self first inner'

/-- The Node shape flags (a Python enum.Flag): LEAF, DICT and LIST bits. -/
structure Node where
  leaf : Bool
  dict : Bool
  list : Bool
deriving DecidableEq, Repr

/-- The LEAF flag. -/
def Node.LEAF : Node := ⟨true, false, false⟩

/-- The DICT flag. -/
def Node.DICT : Node := ⟨false, true, false⟩

/-- The LIST flag. -/
def Node.LIST : Node := ⟨false, false, true⟩

/-- ANY = LEAF | DICT | LIST. -/
def Node.ANY : Node := ⟨true, true, true⟩

/-- LIST_OR_DICT = LIST | DICT. -/
def Node.LIST_OR_DICT : Node := ⟨false, true, true⟩

/-- Bitwise intersection `&` of two flag values. -/
def Node.inter (a b : Node) : Node :=
  ⟨a.leaf && b.leaf, a.dict && b.dict, a.list && b.list⟩

/-- Python truthiness of a Flag: False exactly on the empty flag. -/
def Node.toBool (a : Node) : Bool := a.leaf || a.dict || a.list

/-- get_value_and_type: a dict value gives ({}, DICT), a list ([], LIST),
anything else (itself, LEAF).  (Only the type component is ever used: Entry's
__post_init__ discards the first component.) -/
def get_value_and_type : Value → Value × Node
  | Value.dict _ => (Value.dict [], Node.DICT)
  | Value.list _ => (Value.list [], Node.LIST)
  | v => (v, Node.LEAF)

/-- One (path, priority, value) contribution with its inferred shape and
implicit flag — the frozen dataclass Entry. -/
structure Entry where
  path : PyPath
  priority : Int
  value : Value
  type : Node
  implicit : Bool

/-- Entry.__post_init__: a type left at the ANY default is replaced by the
shape inferred from the value.  Every dataclass construction and every
dataclasses.replace re-runs this. -/
def postInit (e : Entry) : Entry :=
  if e.type == Node.ANY then { e with type := (get_value_and_type e.value).2 } else e

/-- Entry(path, priority, value) with the type and implicit defaults, as
add_entry constructs it. -/
def mkEntry (path : PyPath) (priority : Int) (value : Value) : Entry :=
  postInit { path := path, priority := priority, value := value,
             type := Node.ANY, implicit := false }

/-- Entry.explicit_priority: 0 for implicit entries, else the priority. -/
def explicitPriority (e : Entry) : Int := if e.implicit then 0 else e.priority

/-- `isinstance(part, int)` — true for Python ints AND bools (bool is an int
subtype in Python). -/
def isInstInt : Key → Bool
  | Key.int _ => true
  | Key.bool _ => true
  | _ => false

/-- `isinstance(part, slice)`. -/
def isInstSlice : Key → Bool
  | Key.slice _ _ _ => true
  | _ => false

/-- The implicit entry Entry.get_implicit_entries yields for prefix length
`i` (1 ≤ i < len(path)): dataclasses.replace with the prefix and
implicit=True, then replace again with the placeholder value and shape
chosen by the key following the prefix — `isinstance(part, int)` (so ints
and bools) gives ({}, LIST_OR_DICT), a slice gives ([], LIST), anything else
({}, DICT).  Each replace re-runs __post_init__. -/
def implicitEntryAt (e : Entry) (i : Nat) : Entry :=
  let prefixEntry := postInit { e with path := e.path.take i, implicit := true }
  let part := e.path.getD i Key.noneVal
  if isInstInt part then
    postInit { prefixEntry with value := Value.dict [], type := Node.LIST_OR_DICT }
  else if isInstSlice part then
    postInit { prefixEntry with value := Value.list [], type := Node.LIST }
  else
    postInit { prefixEntry with value := Value.dict [], type := Node.DICT }

/-- Entry.get_implicit_entries as a list: one implicit entry per `i` in
`range(1, len(path))`, then the entry itself, yielded last. -/
def getImplicitEntries (e : Entry) : List Entry :=
  (List.range' 1 (e.path.length - 1)).map (implicitEntryAt e) ++ [e]

/-- Entry.merge: asserts equal paths (Path.__eq__, i.e. Python ==); the value
comes from the side with the higher explicit_priority (ties favor self), the
priority is the max, the type the bitwise intersection, the implicit flag
the conjunction; the result is a fresh dataclass, so __post_init__ runs. -/
def merge (self other : Entry) : Except PyErr Entry :=
  if pyPathEq self.path other.path then
    Except.ok (postInit
      { path := self.path,
        priority := max self.priority other.priority,
        value := if explicitPriority other ≤ explicitPriority self
                 then self.value else other.value,
        type := Node.inter self.type other.type,
        implicit := self.implicit && other.implicit })
  else Except.error PyErr.assertionError

/-- The priority table of configuration.py. -/
def PRIORITIES : List (String × Int) :=
  [("implicit", 1), ("config", 2), ("internal", 3), ("named_config", 4),
   ("run_arguments", 5), ("commandline", 6), ("forced", 7)]

/-- PRIORITIES["forced"]. -/
def forcedPriority : Int :=
  match PRIORITIES.find? (fun kv => kv.fst == "forced") with
  | some kv => kv.snd
  | Option.none => 0

/-- The entry store: an insertion-ordered mapping from paths to the lists of
entries contributed at them (collections.defaultdict(list) over Path keys,
compared with Python ==). -/
abbrev Store := List (PyPath × List Entry)

/-- Dictionary lookup in the store (first matching key wins; keys are unique
by construction). -/
def lookupStore : Store → PyPath → Option (List Entry)
  | [], _ => Option.none
  | kv :: rest, p => if pyPathEq kv.fst p then some kv.snd else lookupStore rest p

/-- defaultdict read `self.entries_by_path[p]`: a hit returns the stored
list and leaves the store alone; a miss INSERTS the key bound to a fresh
empty list and returns that — reads mutate the mapping's key set. -/
def ddAccess (s : Store) (p : PyPath) : List Entry × Store :=
  match lookupStore s p with
  | some l => (l, s)
  | Option.none => ([], s ++ [(p, [])])

/-- `self.entries_by_path[e.path].append(e)`: defaultdict read followed by an
in-place list append. -/
def addEntryOne (s : Store) (e : Entry) : Store :=
  match lookupStore s e.path with
  | some _ => s.map (fun kv => if pyPathEq kv.fst e.path then (kv.fst, kv.snd ++ [e]) else kv)
  | Option.none => s ++ [(e.path, [e])]

/-- The Configuration state: the entry store and the active priority
ceiling. -/
structure Configuration where
  entries_by_path : Store
  active_priority : Int

/-- Configuration.__init__: empty store, ceiling PRIORITIES["forced"]. -/
def initConfiguration : Configuration :=
  { entries_by_path := [], active_priority := forcedPriority }

/-- Configuration.add_entry: `priority = priority or self.active_priority`
(None AND 0 are falsy, so both fall back to the ceiling), the
`priority <= active_priority` assert, then every entry of the implicit
expansion is appended onto its path's list. -/
def addEntry (cfg : Configuration) (path : PyPath) (value : Value)
    (priority : Option Int) : Except PyErr Configuration :=
  let pr : Int := match priority with
    | Option.none => cfg.active_priority
    | some p => if p == 0 then cfg.active_priority else p
  if pr ≤ cfg.active_priority then
    let entry := mkEntry path pr value
    Except.ok { cfg with
      entries_by_path := (getImplicitEntries entry).foldl addEntryOne cfg.entries_by_path }
  else Except.error PyErr.assertionError

/-- Stable ascending insertion by priority (Python's sorted is stable). -/
def insertByPriority (e : Entry) : List Entry → List Entry
  | [] => [e]
  | x :: xs => if x.priority < e.priority then x :: insertByPriority e xs else e :: x :: xs

/-- `sorted(entries, key=lambda entry: entry.priority)`. -/
def sortByPriority (l : List Entry) : List Entry :=
  l.foldr insertByPriority []

/-- The filtered and sorted entry list get_entry_for_priority starts from:
the path's stored entries (a defaultdict read) with priority >= the floor,
stably sorted ascending by priority; paired with the store after the read. -/
def filteredSorted (s : Store) (path : PyPath) (priority : Int) :
    List Entry × Store :=
  (sortByPriority (((ddAccess s path).fst).filter (fun e => priority ≤ e.priority)),
   (ddAccess s path).snd)

/-- The pop-and-merge loop: starting from the popped top entry, keep popping
and merging the next-highest entry while entries remain and the running
result is still implicit. -/
def mergeLoop : Entry → List Entry → Except PyErr Entry
  | r, [] => Except.ok r
  | r, x :: xs =>
      if r.implicit then
        match merge r x with
        | Except.ok r' => mergeLoop r' xs
        | Except.error e => Except.error e
      else Except.ok r

/-- The TypeError message get_entry_for_priority raises when no shape
survives: it names the path via its repr. -/
def noViableMsg (path : PyPath) : String :=
  "No viable type found for " ++ squoteStr ++ pathRepr path ++ squoteStr ++ "."

/-- Configuration.get_entry_for_priority: filter and sort the path's entries,
pop the top (IndexError when nothing qualifies), run the pop-and-merge loop,
and raise TypeError naming the path when the resulting type is empty. -/
def getEntryForPriority (s : Store) (path : PyPath) (priority : Int) :
    Except PyErr Entry × Store :=
  match (filteredSorted s path priority).fst.reverse with
  | [] => (Except.error PyErr.indexError, (filteredSorted s path priority).snd)
  | r :: rest =>
      match mergeLoop r rest with
      | Except.error e => (Except.error e, (filteredSorted s path priority).snd)
      | Except.ok result =>
          if Node.toBool result.type then
            (Except.ok result, (filteredSorted s path priority).snd)
          else
            (Except.error (PyErr.typeError (noViableMsg path)),
             (filteredSorted s path priority).snd)

/-- Python `max(xs, default=0)`. -/
def pyMaxD0 : List Int → Int
  | [] => 0
  | x :: xs => xs.foldl max x

/-- The entries currently stored at a path (the empty list when the key is
absent — what a defaultdict read would return). -/
def entriesAt (s : Store) (p : PyPath) : List Entry :=
  match lookupStore s p with
  | some l => l
  | Option.none => []

/-- The maximum explicit priority among the entries stored at a path, with
max's default of 0. -/
def maxExplicitAt (s : Store) (p : PyPath) : Int :=
  pyMaxD0 ((entriesAt s p).map explicitPriority)

/-- The prefix loop of check_write_access: deny as soon as the candidate
priority is below some prefix's maximum explicit priority; each prefix is a
defaultdict read and may insert a key. -/
def cwaGo (priority : Int) : Store → List PyPath → Bool × Store
  | s, [] => (true, s)
  | s, p :: ps =>
      if priority < pyMaxD0 (((ddAccess s p).fst).map explicitPriority) then
        (false, (ddAccess s p).snd)
      else cwaGo priority (ddAccess s p).snd ps

/-- Configuration.check_write_access: the loop above over
`[path[:i] for i in range(1, len(path))]`. -/
def checkWriteAccess (s : Store) (path : PyPath) (priority : Int) :
    Bool × Store :=
  cwaGo priority s ((List.range' 1 (path.length - 1)).map (fun i => path.take i))

/-- Stable ascending insertion by path length. -/
def insertByLen (p : PyPath) : List PyPath → List PyPath
  | [] => [p]
  | q :: qs => if q.length < p.length then q :: insertByLen p qs else p :: q :: qs

/-- `sorted(compatible_paths, key=lambda p: len(p))`. -/
def sortByLen (l : List PyPath) : List PyPath :=
  l.foldr insertByLen []

/-- One iteration of to_dict's loop over a compatible path: resolve the
entry (errors propagate), check write access with the resolved entry's own
priority, and on success assign the entry's value into the result tree at
the path. -/
def toDictStep (priority : Int) (acc : Except PyErr Value × Store)
    (path : PyPath) : Except PyErr Value × Store :=
  match acc with
  | (Except.error e, s) => (Except.error e, s)
  | (Except.ok d, s) =>
      match getEntryForPriority s path priority with
      | (Except.error e, s₁) => (Except.error e, s₁)
      | (Except.ok entry, s₁) =>
          if (checkWriteAccess s₁ path entry.priority).fst then
            match setPath d path entry.value with
            | Except.error e => (Except.error e, (checkWriteAccess s₁ path entry.priority).snd)
            | Except.ok d' => (Except.ok d', (checkWriteAccess s₁ path entry.priority).snd)
          else (Except.ok d, (checkWriteAccess s₁ path entry.priority).snd)

/-- Configuration.to_dict: the stored paths compatible with `restrict`, in
insertion order, sorted ascending by length, folded through toDictStep into
a fresh PathDict. -/
def toDict (cfg : Configuration) (restrict : PyPath) (priority : Int) :
    Except PyErr Value × Store :=
  let compatible := (cfg.entries_by_path.map Prod.fst).filter
    (fun k => is_compatible_with restrict k)
  (sortByLen compatible).foldl (toDictStep priority)
    (Except.ok (Value.dict []), cfg.entries_by_path)

/-- Configuration.get_value: `self.to_dict(restrict=path)[path]`. -/
def getValue (cfg : Configuration) (path : PyPath) : Except PyErr Value × Store :=
  match toDict cfg path 0 with
  | (Except.error e, s) => (Except.error e, s)
  | (Except.ok d, s) => (getPath d path, s)

/-- The store relation the read operations actually guarantee: every stored
entry list is preserved verbatim, and any new key maps to the empty list
(the defaultdict insertion). -/
def storePreserved (s s' : Store) : Prop :=
  (∀ p l, lookupStore s p = some l → lookupStore s' p = some l) ∧
  (∀ p l, lookupStore s' p = some l → lookupStore s p = some l ∨ l = [])

/-- The implicit placeholder the (amended) expansion claim describes for the
prefix of length i: same priority as the source, implicit, and — keyed on
the part following the prefix — an Integer or Boolean key (Python bool being
an int) gives an empty-dict value of shape LIST_OR_DICT, a Slice key an
empty-list value of shape LIST, every other kind an empty-dict value of
shape DICT. -/
def implicitEntrySpec (e : Entry) (i : Nat) : Entry :=
  match e.path.getD i Key.noneVal with
  | Key.int _ =>
      { path := e.path.take i, priority := e.priority, value := Value.dict [],
        type := Node.LIST_OR_DICT, implicit := true }
  | Key.bool _ =>
      { path := e.path.take i, priority := e.priority, value := Value.dict [],
        type := Node.LIST_OR_DICT, implicit := true }
  | Key.slice _ _ _ =>
      { path := e.path.take i, priority := e.priority, value := Value.list [],
        type := Node.LIST, implicit := true }
  | _ =>
      { path := e.path.take i, priority := e.priority, value := Value.dict [],
        type := Node.DICT, implicit := true }

/-- The complex-keyed path of the round-trip failure: Path("a", 1+1j). -/
def complexPath : PyPath := [Key.str "a", Key.complex ⟨"1"⟩ ⟨"1"⟩]

/-- What from_str actually reconstructs from that path's rendering: the
bracket content `(1+1j)` re-parses as a fallback token string. -/
def complexPathReparsed : PyPath := [Key.str "a", Key.str "(1+1j)"]

/-- A configuration whose ROOT path holds an explicit priority-6 entry
(add_entry with the empty path stores only the terminal entry, at the
root). -/
def rootClosedConfig : Except PyErr Configuration :=
  addEntry initConfiguration [] (Value.dict [(Key.str "x", Value.int 1)]) (some 6)

/-- Its entry store. -/
def rootClosedStore : Store :=
  match rootClosedConfig with
  | Except.ok c => c.entries_by_path
  | Except.error _ => []

/-- The store of test_ignored_entry: `a = {"b": 1, "c": 2}` at priority 6,
then `a.b = 9` at priority 2. -/
def gatingConfig : Except PyErr Configuration :=
  match addEntry initConfiguration [Key.str "a"]
      (Value.dict [(Key.str "b", Value.int 1), (Key.str "c", Value.int 2)]) (some 6) with
  | Except.ok c => addEntry c [Key.str "a", Key.str "b"] (Value.int 9) (some 2)
  | Except.error e => Except.error e

/-- Its entry store. -/
def gatingStore : Store :=
  match gatingConfig with
  | Except.ok c => c.entries_by_path
  | Except.error _ => []

/-- The explicit priority-6 entry stored at path `a` in gatingStore. -/
def gatingAncestorEntry : Entry :=
  mkEntry [Key.str "a"]
    6 (Value.dict [(Key.str "b", Value.int 1), (Key.str "c", Value.int 2)])

/-- The explicit priority-2 entry stored at path `a.b` in gatingStore. -/
def gatingLeafEntry : Entry :=
  mkEntry [Key.str "a", Key.str "b"] 2 (Value.int 9)

/-- Merge inputs for the worked merge instance: two explicit entries at the
same path with priorities 5 and 3. -/
def mergeLhs : Entry := mkEntry [Key.str "a"] 5 (Value.int 1)

/-- The lower-priority side. -/
def mergeRhs : Entry := mkEntry [Key.str "a"] 3 (Value.int 2)

/-- An entry whose path has a Boolean second key — the input separating
`isinstance(part, int)` from the claim's reading of Boolean keys. -/
def boolKeyEntry : Entry :=
  mkEntry [Key.str "a", Key.bool true, Key.str "b"] 5 (Value.int 1)

/-- The configuration of the slice-write scenario: `a = [1, 2, 3, 4]` at
priority 2, then `a[:2] = [9, 9]` at priority 4. -/
def sliceConfig : Except PyErr Configuration :=
  match addEntry initConfiguration [Key.str "a"]
      (Value.list [Value.int 1, Value.int 2, Value.int 3, Value.int 4]) (some 2) with
  | Except.ok c =>
      addEntry c [Key.str "a", Key.slice Option.none (some 2) Option.none]
        (Value.list [Value.int 9, Value.int 9]) (some 4)
  | Except.error e => Except.error e

/-- to_dict() of the slice-write scenario, with the default arguments. -/
def sliceScenarioResult : Except PyErr Value :=
  match sliceConfig with
  | Except.ok c => (toDict c [] 0).fst
  | Except.error e => Except.error e

/-- The store of the shape-conflict scenario: `a = {"b": 1}` at priority 2,
then `a[:2] = [9]` at priority 4 (a DICT-shaped and a LIST-shaped
contribution at path `a`). -/
def conflictConfig : Except PyErr Configuration :=
  match addEntry initConfiguration [Key.str "a"]
      (Value.dict [(Key.str "b", Value.int 1)]) (some 2) with
  | Except.ok c =>
      addEntry c [Key.str "a", Key.slice Option.none (some 2) Option.none]
        (Value.list [Value.int 9]) (some 4)
  | Except.error e => Except.error e

/-- Its entry store. -/
def conflictStore : Store :=
  match conflictConfig with
  | Except.ok c => c.entries_by_path
  | Except.error _ => []

/-- The explicit DICT entry at `a` in conflictStore. -/
def conflictDictEntry : Entry :=
  mkEntry [Key.str "a"] 2 (Value.dict [(Key.str "b", Value.int 1)])

/-- The implicit LIST entry at `a` in conflictStore (the slice-key
placeholder of the second add_entry). -/
def conflictImplEntry : Entry :=
  implicitEntryAt
    (mkEntry [Key.str "a", Key.slice Option.none (some 2) Option.none]
      4 (Value.list [Value.int 9])) 1

/-- The merge-loop result of the conflict: the empty shape. -/
def conflictMerged : Entry :=
  { path := [Key.str "a"], priority := 4,
    value := Value.dict [(Key.str "b", Value.int 1)],
    type := ⟨false, false, false⟩, implicit := false }

theorem lookup_append_single (s : Store) (p : PyPath) (l : List Entry) (q : PyPath) :
    lookupStore (s ++ [(p, l)]) q =
      match lookupStore s q with
      | some r => some r
      | Option.none => if pyPathEq p q then some l else Option.none := by
  induction s with
  | nil => simp [lookupStore]
  | cons kv rest ih =>
      by_cases h : pyPathEq kv.fst q = true
      · simp [lookupStore, h]
      · simp only [List.cons_append, lookupStore, h, Bool.false_eq_true, if_false]
        exact ih

theorem ddAccess_fst (s : Store) (p : PyPath) : (ddAccess s p).fst = entriesAt s p := by
  unfold ddAccess entriesAt
  cases lookupStore s p <;> rfl

theorem entriesAt_ddAccess (s : Store) (p q : PyPath) :
    entriesAt (ddAccess s p).snd q = entriesAt s q := by
  unfold ddAccess
  cases h : lookupStore s p with
  | some l => rfl
  | none =>
      unfold entriesAt
      rw [lookup_append_single]
      cases hq : lookupStore s q with
      | some l => rfl
      | none =>
          by_cases hpq : pyPathEq p q = true <;> simp [hpq]

theorem maxExplicitAt_ddAccess (s : Store) (p q : PyPath) :
    maxExplicitAt (ddAccess s p).snd q = maxExplicitAt s q := by
  unfold maxExplicitAt
  rw [entriesAt_ddAccess]

theorem storePreserved_refl (s : Store) : storePreserved s s :=
  ⟨fun _ _ h => h, fun _ _ h => Or.inl h⟩

theorem storePreserved_trans {s₁ s₂ s₃ : Store}
    (h₁ : storePreserved s₁ s₂) (h₂ : storePreserved s₂ s₃) :
    storePreserved s₁ s₃ := by
  refine ⟨fun p l h => h₂.1 p l (h₁.1 p l h), fun p l h => ?_⟩
  rcases h₂.2 p l h with h' | h'
  · exact h₁.2 p l h'
  · exact Or.inr h'

theorem storePreserved_ddAccess (s : Store) (p : PyPath) :
    storePreserved s (ddAccess s p).snd := by
  unfold ddAccess
  cases h : lookupStore s p with
  | some l => exact storePreserved_refl s
  | none =>
      constructor
      · intro q lq hq
        rw [lookup_append_single, hq]
      · intro q lq hq
        rw [lookup_append_single] at hq
        cases hq' : lookupStore s q with
        | some r => rw [hq'] at hq; exact Or.inl (by simpa using hq)
        | none =>
            rw [hq'] at hq
            by_cases hpq : pyPathEq p q = true
            · simp [hpq] at hq; exact Or.inr hq
            · simp [hpq] at hq

theorem le_foldl_max (l : List Int) (x : Int) : x ≤ l.foldl max x := by
  induction l generalizing x with
  | nil => exact le_refl x
  | cons y ys ih => exact le_trans (le_max_left x y) (ih (max x y))

theorem mem_le_foldl_max (l : List Int) (x a : Int) (h : a ∈ l) : a ≤ l.foldl max x := by
  induction l generalizing x with
  | nil => cases h
  | cons y ys ih =>
      rcases List.mem_cons.mp h with rfl | h'
      · exact le_trans (le_max_right x a) (le_foldl_max ys (max x a))
      · exact ih (max x y) h'

theorem le_pyMaxD0 (xs : List Int) (a : Int) (h : a ∈ xs) : a ≤ pyMaxD0 xs := by
  cases xs with
  | nil => cases h
  | cons x rest =>
      rcases List.mem_cons.mp h with rfl | h'
      · exact le_foldl_max rest a
      · exact mem_le_foldl_max rest x a h'

theorem explicit_le_maxExplicitAt (s : Store) (p : PyPath) (e : Entry)
    (he : e ∈ entriesAt s p) : explicitPriority e ≤ maxExplicitAt s p :=
  le_pyMaxD0 _ _ (List.mem_map_of_mem explicitPriority he)

theorem cwaGo_false_iff (priority : Int) (ps : List PyPath) (s : Store) :
    (cwaGo priority s ps).fst = false ↔ ∃ p ∈ ps, priority < maxExplicitAt s p := by
  induction ps generalizing s with
  | nil => simp [cwaGo]
  | cons p rest ih =>
      unfold cwaGo
      rw [ddAccess_fst]
      by_cases h : priority < maxExplicitAt s p
      · simp only [maxExplicitAt] at h
        simp [h, maxExplicitAt]
      · simp only [maxExplicitAt] at h
        simp only [h, if_false, ih]
        constructor
        · rintro ⟨q, hq, hlt⟩
          refine ⟨q, List.mem_cons_of_mem p hq, ?_⟩
          rwa [maxExplicitAt_ddAccess] at hlt
        · rintro ⟨q, hq, hlt⟩
          rcases List.mem_cons.mp hq with rfl | hq'
          · exact absurd hlt (by simpa [maxExplicitAt] using h)
          · exact ⟨q, hq', by rwa [maxExplicitAt_ddAccess]⟩

theorem cwaGo_snd_preserved (priority : Int) (ps : List PyPath) (s : Store) :
    storePreserved s (cwaGo priority s ps).snd := by
  induction ps generalizing s with
  | nil => exact storePreserved_refl s
  | cons p rest ih =>
      unfold cwaGo
      by_cases h : priority < pyMaxD0 (((ddAccess s p).fst).map explicitPriority)
      · simpa [h] using storePreserved_ddAccess s p
      · simpa [h] using storePreserved_trans (storePreserved_ddAccess s p) (ih (ddAccess s p).snd)

theorem getEntryForPriority_snd (s : Store) (path : PyPath) (priority : Int) :
    (getEntryForPriority s path priority).snd = (ddAccess s path).snd := by
  unfold getEntryForPriority
  split
  · rfl
  · split
    · rfl
    · split <;> rfl

theorem storePreserved_getEntry (s : Store) (path : PyPath) (priority : Int) :
    storePreserved s (getEntryForPriority s path priority).snd := by
  rw [getEntryForPriority_snd]
  exact storePreserved_ddAccess s path

theorem storePreserved_cwa (s : Store) (path : PyPath) (priority : Int) :
    storePreserved s (checkWriteAccess s path priority).snd :=
  cwaGo_snd_preserved priority _ s

theorem storePreserved_toDictStep (priority : Int) (acc : Except PyErr Value × Store)
    (path : PyPath) : storePreserved acc.snd (toDictStep priority acc path).snd := by
  rcases acc with ⟨d, s⟩
  cases d with
  | error e => exact storePreserved_refl s
  | ok d =>
      show storePreserved s (toDictStep priority (Except.ok d, s) path).snd
      unfold toDictStep
      rcases hg : getEntryForPriority s path priority with ⟨r, s₁⟩
      have hs₁ : storePreserved s s₁ := by
        have h := storePreserved_getEntry s path priority
        rw [hg] at h
        exact h
      simp only [hg]
      cases r with
      | error e => exact hs₁
      | ok entry =>
          have htr : storePreserved s (checkWriteAccess s₁ path entry.priority).snd :=
            storePreserved_trans hs₁ (storePreserved_cwa s₁ path entry.priority)
          by_cases h : (checkWriteAccess s₁ path entry.priority).fst = true
          · simp only [h, if_true]
            cases setPath d path entry.value with
            | error e => exact htr
            | ok d' => exact htr
          · simp only [Bool.not_eq_true] at h
            simp only [h, Bool.false_eq_true, if_false]
            exact htr

theorem storePreserved_foldlSteps (priority : Int) (paths : List PyPath)
    (acc : Except PyErr Value × Store) :
    storePreserved acc.snd ((paths.foldl (toDictStep priority) acc).snd) := by
  induction paths generalizing acc with
  | nil => exact storePreserved_refl acc.snd
  | cons p rest ih =>
      exact storePreserved_trans (storePreserved_toDictStep priority acc p)
        (ih (toDictStep priority acc p))

theorem storePreserved_toDict (cfg : Configuration) (restrict : PyPath) (priority : Int) :
    storePreserved cfg.entries_by_path (toDict cfg restrict priority).snd := by
  unfold toDict
  exact storePreserved_foldlSteps priority _
    (Except.ok (Value.dict []), cfg.entries_by_path)

theorem storePreserved_getValue (cfg : Configuration) (path : PyPath) :
    storePreserved cfg.entries_by_path (getValue cfg path).snd := by
  unfold getValue
  cases h : toDict cfg path 0 with
  | mk r s =>
      have := storePreserved_toDict cfg path 0
      rw [h] at this
      cases r with
      | error e => exact this
      | ok d => exact this

theorem checkWriteAccess_false_iff (s : Store) (path : PyPath) (priority : Int) :
    (checkWriteAccess s path priority).fst = false ↔
      ∃ i, 0 < i ∧ i < path.length ∧ priority < maxExplicitAt s (path.take i) := by
  unfold checkWriteAccess
  rw [cwaGo_false_iff]
  constructor
  · rintro ⟨p, hp, hlt⟩
    rcases List.mem_map.mp hp with ⟨i, hi, rfl⟩
    rcases List.mem_range'_1.mp hi with ⟨h1, h2⟩
    exact ⟨i, h1, by omega, hlt⟩
  · rintro ⟨i, h0, hlen, hlt⟩
    exact ⟨path.take i,
      List.mem_map_of_mem _ (List.mem_range'_1.mpr ⟨h0, by omega⟩), hlt⟩

theorem lookup_map_update (s : Store) (p : PyPath) (e : Entry) (q : PyPath)
    (l : List Entry)
    (h : lookupStore
      (s.map (fun kv => if pyPathEq kv.fst p then (kv.fst, kv.snd ++ [e]) else kv)) q
      = some l) :
    ∃ l₀, lookupStore s q = some l₀ ∧ (l = l₀ ∨ l = l₀ ++ [e]) := by
  induction s with
  | nil => simp [lookupStore] at h
  | cons kv rest ih =>
      by_cases hp : pyPathEq kv.fst p = true
      · by_cases hq : pyPathEq kv.fst q = true
        · simp only [List.map_cons, hp, if_true, lookupStore, hq] at h
          exact ⟨kv.snd, by simp [lookupStore, hq], Or.inr (by injection h with h'; exact h'.symm)⟩
        · simp only [List.map_cons, hp, if_true, lookupStore, hq, Bool.false_eq_true,
            if_false] at h
          rcases ih h with ⟨l₀, hl₀, hor⟩
          exact ⟨l₀, by simp [lookupStore, hq, hl₀], hor⟩
      · by_cases hq : pyPathEq kv.fst q = true
        · simp only [List.map_cons, hp, Bool.false_eq_true, if_false, lookupStore, hq,
            if_true] at h
          exact ⟨kv.snd, by simp [lookupStore, hq], Or.inl (by injection h with h'; exact h'.symm)⟩
        · simp only [List.map_cons, hp, Bool.false_eq_true, if_false, lookupStore, hq] at h
          rcases ih h with ⟨l₀, hl₀, hor⟩
          exact ⟨l₀, by simp [lookupStore, hq, hl₀], hor⟩

theorem lookup_addEntryOne (s : Store) (e : Entry) (q : PyPath) (l : List Entry)
    (h : lookupStore (addEntryOne s e) q = some l) :
    (∃ l₀, lookupStore s q = some l₀ ∧ (l = l₀ ∨ l = l₀ ++ [e])) ∨ l = [e] := by
  unfold addEntryOne at h
  cases hl : lookupStore s e.path with
  | some l₁ =>
      rw [hl] at h
      exact Or.inl (lookup_map_update s e.path e q l h)
  | none =>
      rw [hl] at h
      rw [lookup_append_single] at h
      cases hq : lookupStore s q with
      | some r =>
          rw [hq] at h
          exact Or.inl ⟨r, rfl, Or.inl (by injection h with h'; exact h'.symm)⟩
      | none =>
          rw [hq] at h
          by_cases hpq : pyPathEq e.path q = true
          · simp only [hpq, if_true] at h
            exact Or.inr (by injection h with h'; exact h'.symm)
          · simp [hpq] at h

theorem storeAll_addEntryOne (P : Entry → Prop) (s : Store) (e : Entry)
    (hs : ∀ q l, lookupStore s q = some l → ∀ x ∈ l, P x) (he : P e) :
    ∀ q l, lookupStore (addEntryOne s e) q = some l → ∀ x ∈ l, P x := by
  intro q l h x hx
  rcases lookup_addEntryOne s e q l h with ⟨l₀, hl₀, hor⟩ | rfl
  · rcases hor with rfl | rfl
    · exact hs q l hl₀ x hx
    · rcases List.mem_append.mp hx with hx' | hx'
      · exact hs q l₀ hl₀ x hx'
      · rw [List.mem_singleton.mp hx']; exact he
  · rw [List.mem_singleton.mp hx]; exact he

theorem storeAll_foldl (P : Entry → Prop) (es : List Entry) (s : Store)
    (hs : ∀ q l, lookupStore s q = some l → ∀ x ∈ l, P x)
    (he : ∀ x ∈ es, P x) :
    ∀ q l, lookupStore (es.foldl addEntryOne s) q = some l → ∀ x ∈ l, P x := by
  induction es generalizing s with
  | nil => exact hs
  | cons a rest ih =>
      exact ih (addEntryOne s a)
        (storeAll_addEntryOne P s a hs (he a (List.mem_cons_self a rest)))
        (fun x hx => he x (List.mem_cons_of_mem a hx))

theorem postInit_update_eq (e : Entry) (v : Value) (t : Node) :
    { postInit e with value := v, type := t } =
      { path := e.path, priority := e.priority, value := v, type := t,
        implicit := e.implicit } := by
  unfold postInit
  by_cases h : (e.type == Node.ANY) = true <;> simp [h]

theorem postInit_of_ne (e : Entry) (h : e.type ≠ Node.ANY) : postInit e = e := by
  unfold postInit
  simp [beq_iff_eq, h]

theorem postInit_update_ne (e : Entry) (v : Value) (t : Node) (h : t ≠ Node.ANY) :
    postInit { postInit e with value := v, type := t } =
      { path := e.path, priority := e.priority, value := v, type := t,
        implicit := e.implicit } := by
  rw [postInit_update_eq]
  unfold postInit
  simp [beq_iff_eq, h]

theorem implicitEntryAt_eq (e : Entry) (i : Nat) :
    implicitEntryAt e i = implicitEntrySpec e i := by
  unfold implicitEntryAt implicitEntrySpec
  cases hpart : e.path.getD i Key.noneVal <;>
    simp [isInstInt, isInstSlice, postInit_update_ne, Node.LIST_OR_DICT, Node.LIST,
      Node.DICT, Node.ANY]

theorem priority_getImplicitEntries (e x : Entry) (hx : x ∈ getImplicitEntries e) :
    x.priority = e.priority := by
  unfold getImplicitEntries at hx
  rcases List.mem_append.mp hx with hx' | hx'
  · rcases List.mem_map.mp hx' with ⟨i, _, rfl⟩
    rw [implicitEntryAt_eq]
    unfold implicitEntrySpec
    cases e.path.getD i Key.noneVal <;> rfl
  · rw [List.mem_singleton.mp hx']

theorem inter_ne_ANY (a b : Node) (h : a ≠ Node.ANY) : Node.inter a b ≠ Node.ANY := by
  intro hh
  apply h
  cases a with
  | mk al ad alst =>
      cases b with
      | mk bl bd blst =>
          unfold Node.inter Node.ANY at hh
          simp only [Node.mk.injEq, Bool.and_eq_true] at hh
          unfold Node.ANY
          simp [Node.mk.injEq, hh.1.1, hh.2.1.1, hh.2.2.1]

/-- C1: The round-trip claim fails on the code at the complex key 1+1j:
rendering Path("a", 1+1j) yields "a[(1+1j)]" (CPython parenthesizes the str
of a complex with nonzero real part, and format_part only strips spaces), and
from_str re-parses the bracket content "(1+1j)" through the grammar's
fallback `other` rule as the STRING "(1+1j)" — the tuple rule rejects it (no
comma) and no numeric rule reaches through the parentheses.  So
Path.from_str(repr(p)) is Path("a", "(1+1j)"), which is not equal (Python ==)
to p, against the claim's equality for all representable literal keys. -/
theorem c1_complex_roundtrip_failure :
    from_str (pathRepr complexPath) = some complexPathReparsed ∧
    pyPathEq complexPathReparsed complexPath = false :=
  ⟨rfl, rfl⟩

/-- C3: For entries with equal paths (Python ==), merge returns exactly the
Entry the claim describes: the value of the side with the larger
explicit_priority (ties favor self), the max priority, the bitwise shape
intersection, and the conjunction of the implicit flags.  The `e1.type ≠ ANY`
hypothesis is the dataclass invariant: Entry.__post_init__ replaces an ANY
type at construction, so no live Entry carries ANY (and the merged
intersection can then never be ANY, keeping __post_init__ inert). -/
theorem c3_merge_fields (e1 e2 : Entry) (hty : e1.type ≠ Node.ANY)
    (h : pyPathEq e1.path e2.path = true) :
    merge e1 e2 = Except.ok
      { path := e1.path,
        priority := max e1.priority e2.priority,
        value := if explicitPriority e2 ≤ explicitPriority e1
                 then e1.value else e2.value,
        type := Node.inter e1.type e2.type,
        implicit := e1.implicit && e2.implicit } := by
  unfold merge
  simp only [h, if_true]
  exact congrArg Except.ok (postInit_of_ne _ (inter_ne_ANY e1.type e2.type hty))

/-- C3 witness: the merge of two concrete explicit entries at path `a` with
priorities 5 and 3, via the theorem. -/
theorem c3_merge_fields_witness :
    merge mergeLhs mergeRhs = Except.ok
      { path := mergeLhs.path,
        priority := max mergeLhs.priority mergeRhs.priority,
        value := if explicitPriority mergeRhs ≤ explicitPriority mergeLhs
                 then mergeLhs.value else mergeRhs.value,
        type := Node.inter mergeLhs.type mergeRhs.type,
        implicit := mergeLhs.implicit && mergeRhs.implicit } :=
  c3_merge_fields mergeLhs mergeRhs (by decide) (by decide)

/-- C4 counterexample: the claim as stated is false for a Boolean key.  For
the entry at path ("a", True, "b"), the first yielded implicit entry (prefix
"a", followed by the key True) has shape LIST_OR_DICT, because
`isinstance(True, int)` holds in Python — not DICT as the claim assigns to
"every other key kind (including Boolean, ...)". -/
theorem c4_bool_key_counterexample :
    (getImplicitEntries boolKeyEntry).head?.map Entry.type = some Node.LIST_OR_DICT ∧
    Node.LIST_OR_DICT ≠ Node.DICT :=
  ⟨rfl, by decide⟩

/-- C4 (amended): get_implicit_entries yields exactly one implicit entry per
proper non-empty prefix (lengths 1..n-1, in order), each with the source's
priority and implicit=True, whose placeholder value and shape are determined
by the key following the prefix — an Integer OR BOOLEAN key (Python bool
being an int subtype) gives an empty-dict value with shape DICT_OR_LIST, a
Slice key an empty-list value with shape LIST, and every other key kind an
empty-dict value with shape DICT; the terminal explicit entry is yielded
last. -/
theorem c4_implicit_expansion (e : Entry) :
    getImplicitEntries e =
      (List.range' 1 (e.path.length - 1)).map (implicitEntrySpec e) ++ [e] := by
  unfold getImplicitEntries
  have hf : implicitEntryAt e = implicitEntrySpec e := funext (implicitEntryAt_eq e)
  rw [hf]

/-- C6: from the empty Configuration, add_entry("a", [1,2,3,4], priority=2)
then add_entry("a[:2]", [9,9], priority=4) makes to_dict() (default
arguments) equal to {"a": [9, 9, 3, 4]}: the implicit slice placeholder
keeps priority 4 but explicit_priority 0, so the explicit [1,2,3,4] survives
the merge at "a", and the slice assignment then splices [9,9] over its first
two elements. -/
theorem c6_slice_write_scenario :
    sliceScenarioResult = Except.ok
      (Value.dict [(Key.str "a",
        Value.list [Value.int 9, Value.int 9, Value.int 3, Value.int 4])]) :=
  rfl

/-- C7: The empty Path is a prefix of and compatible with every Path, but it
is NOT a suffix of any nonempty Path: is_suffix_of computes
`parts[-len(self):]`, and for the empty path `-0 = 0` slices the WHOLE other
tuple, so `() == other.parts` fails — against both the claim and the
method's own docstring ("Return True if this path is a suffix of given
path"). -/
theorem c7_root_path_relations :
    (∀ p : PyPath, is_prefix_of [] p = true) ∧
    (∀ p : PyPath, is_compatible_with [] p = true) ∧
    is_suffix_of [] [Key.str "a"] = false := by
  refine ⟨fun p => rfl, fun p => ?_, rfl⟩
  simp [is_compatible_with, pyKeyListEq]

/-- C2 counterexample: the gating claim quantifies over every proper prefix,
but check_write_access only inspects `path[:i]` for i in range(1, len(path)),
never the empty (root) prefix.  With an explicit priority-6 entry stored at
the root, check_write_access grants priority 2 at path "a" although the root
— a proper prefix of "a" — has maximum explicit priority 6 > 2. -/
theorem c2_root_prefix_counterexample :
    (checkWriteAccess rootClosedStore [Key.str "a"] 2).fst = true ∧
    is_prefix_of [] [Key.str "a"] = true ∧
    ([] : PyPath) ≠ [Key.str "a"] ∧
    maxExplicitAt rootClosedStore [] = 6 ∧ (2 : Int) < 6 :=
  ⟨rfl, rfl, by simp, rfl, by decide⟩

/-- C2 (amended): (a) check_write_access(path, priority) denies — returns
False — if and only if some NONEMPTY proper prefix path[:i], 1 ≤ i <
len(path), has maximum explicit priority (0 when the prefix holds no
entries) exceeding the candidate priority; the root prefix is never
consulted.  (b) As a consequence, in to_dict's loop over a path: if some
nonempty proper prefix holds an explicit (non-implicit) entry whose priority
exceeds the priority of the entry the path resolved to, the step leaves the
result tree unchanged — the lower-priority value at the strictly deeper path
does not contribute to to_dict's output. -/
theorem c2_write_access_gating :
    (∀ (s : Store) (path : PyPath) (priority : Int),
      (checkWriteAccess s path priority).fst = false ↔
        ∃ i, 0 < i ∧ i < path.length ∧ priority < maxExplicitAt s (path.take i)) ∧
    (∀ (s : Store) (floor : Int) (path : PyPath) (e : Entry) (s₁ : Store)
        (i : Nat) (eA : Entry) (d : Value),
      getEntryForPriority s path floor = (Except.ok e, s₁) →
      0 < i → i < path.length →
      eA ∈ entriesAt s (path.take i) →
      eA.implicit = false →
      e.priority < eA.priority →
      ∃ s₂, toDictStep floor (Except.ok d, s) path = (Except.ok d, s₂)) := by
  constructor
  · exact checkWriteAccess_false_iff
  · intro s floor path e s₁ i eA d hg h0 hlen hmem himpl hlt
    have hs₁ : s₁ = (ddAccess s path).snd := by
      have h := getEntryForPriority_snd s path floor
      rw [hg] at h
      exact h
    have hle := explicit_le_maxExplicitAt s (path.take i) eA hmem
    unfold explicitPriority at hle
    rw [himpl] at hle
    simp only [Bool.false_eq_true, if_false] at hle
    have hmax : e.priority < maxExplicitAt s₁ (path.take i) := by
      rw [hs₁, maxExplicitAt_ddAccess]
      exact lt_of_lt_of_le hlt hle
    have hfalse : (checkWriteAccess s₁ path e.priority).fst = false :=
      (checkWriteAccess_false_iff s₁ path e.priority).mpr ⟨i, h0, hlen, hmax⟩
    refine ⟨(checkWriteAccess s₁ path e.priority).snd, ?_⟩
    unfold toDictStep
    simp only [hg, hfalse, Bool.false_eq_true, if_false]

/-- C2 witness: in the store of test_ignored_entry (`a` assigned explicitly
at priority 6, then `a.b` at priority 2), access to `a.b` at priority 2 is
denied, and the to_dict step over `a.b` leaves the tree unchanged. -/
theorem c2_write_access_gating_witness :
    (checkWriteAccess gatingStore [Key.str "a", Key.str "b"] 2).fst = false ∧
    (∃ s₂, toDictStep 0 (Except.ok (Value.dict []), gatingStore)
        [Key.str "a", Key.str "b"] = (Except.ok (Value.dict []), s₂)) := by
  constructor
  · exact (c2_write_access_gating.1 gatingStore [Key.str "a", Key.str "b"] 2).mpr
      ⟨1, by decide, by decide, by decide⟩
  · exact c2_write_access_gating.2 gatingStore 0 [Key.str "a", Key.str "b"]
      gatingLeafEntry gatingStore 1 gatingAncestorEntry (Value.dict [])
      (by rfl) (by decide) (by decide)
      (by
        show gatingAncestorEntry ∈ entriesAt gatingStore [Key.str "a"]
        have h : entriesAt gatingStore [Key.str "a"]
            = [gatingAncestorEntry, implicitEntryAt gatingLeafEntry 1] := rfl
        rw [h]
        exact List.mem_cons_self _ _)
      (by rfl) (by decide)

/-- C5: When, after the pop-and-merge loop of get_entry_for_priority, the
resulting entry's shape is the empty intersection (Python-falsy Flag),
resolution raises `TypeError("No viable type found for '<path>'.")` — the
message names the path via its repr — instead of returning an entry.  (The
spec calls this error kind UnresolvedTypeError; the code realizes it as a
TypeError carrying exactly this message.) -/
theorem c5_empty_shape_typeerror (s : Store) (path : PyPath) (floor : Int)
    (r res : Entry) (rest : List Entry)
    (hrev : (filteredSorted s path floor).fst.reverse = r :: rest)
    (hloop : mergeLoop r rest = Except.ok res)
    (hty : Node.toBool res.type = false) :
    getEntryForPriority s path floor =
      (Except.error (PyErr.typeError (noViableMsg path)),
       (filteredSorted s path floor).snd) := by
  unfold getEntryForPriority
  simp only [hrev, hloop, hty, Bool.false_eq_true, if_false]

/-- C5 witness: a DICT-shaped explicit entry at priority 2 and a LIST-shaped
implicit (slice placeholder) entry at priority 4 at the same path `a` merge
to the empty shape, and resolution raises the TypeError naming `a`. -/
theorem c5_empty_shape_typeerror_witness :
    getEntryForPriority conflictStore [Key.str "a"] 0 =
      (Except.error (PyErr.typeError (noViableMsg [Key.str "a"])),
       (filteredSorted conflictStore [Key.str "a"] 0).snd) :=
  c5_empty_shape_typeerror conflictStore [Key.str "a"] 0
    conflictImplEntry conflictMerged [conflictDictEntry] rfl rfl rfl

/-- C8 counterexample: the frame claim is false as stated — read operations
do change the observable mapping.  On the empty Configuration store,
check_write_access(Path("a","b"), 5) reads the defaultdict at the prefix
Path("a"), inserting that key bound to the empty list: the key set grows. -/
theorem c8_read_mutates_counterexample :
    (checkWriteAccess ([] : Store) [Key.str "a", Key.str "b"] 5).snd
      = [([Key.str "a"], [])] ∧
    (checkWriteAccess ([] : Store) [Key.str "a", Key.str "b"] 5).snd ≠ ([] : Store) := by
  refine ⟨rfl, ?_⟩
  rw [show (checkWriteAccess ([] : Store) [Key.str "a", Key.str "b"] 5).snd
      = [([Key.str "a"], [])] from rfl]
  simp

/-- C8 (amended): every Configuration operation other than add_entry
(get_entry_for_priority, check_write_access, to_dict, get_value) preserves
every stored entry list verbatim and never removes a key; the only mutation
they may perform is the defaultdict side effect of inserting missing keys
bound to empty lists. -/
theorem c8_read_frame (cfg : Configuration) :
    (∀ path floor, storePreserved cfg.entries_by_path
        (getEntryForPriority cfg.entries_by_path path floor).snd) ∧
    (∀ path priority, storePreserved cfg.entries_by_path
        (checkWriteAccess cfg.entries_by_path path priority).snd) ∧
    (∀ restrict priority, storePreserved cfg.entries_by_path
        (toDict cfg restrict priority).snd) ∧
    (∀ path, storePreserved cfg.entries_by_path (getValue cfg path).snd) :=
  ⟨fun path floor => storePreserved_getEntry _ path floor,
   fun path priority => storePreserved_cwa _ path priority,
   fun restrict priority => storePreserved_toDict cfg restrict priority,
   fun path => storePreserved_getValue cfg path⟩

/-- C8 witness: after a full get_value over the test_ignored_entry store,
the entry list stored at path `a` is looked up unchanged. -/
theorem c8_read_frame_witness :
    lookupStore (getValue { entries_by_path := gatingStore, active_priority := 7 }
        [Key.str "a"]).snd [Key.str "a"]
      = some (entriesAt gatingStore [Key.str "a"]) := by
  have h := (c8_read_frame
    { entries_by_path := gatingStore, active_priority := 7 }).2.2.2 [Key.str "a"]
  exact h.1 [Key.str "a"] (entriesAt gatingStore [Key.str "a"]) rfl

/-- C9: `priority=0` is falsy in `priority or self.active_priority`, so
add_entry with priority 0 behaves exactly like add_entry with the priority
omitted; on a fresh Configuration (active ceiling PRIORITIES["forced"] = 7)
the entry and all its implicit-prefix entries are therefore stored with
priority 7, not 0. -/
theorem c9_priority_zero_forced :
    (∀ (cfg : Configuration) (path : PyPath) (v : Value),
      addEntry cfg path v (some 0) = addEntry cfg path v Option.none) ∧
    forcedPriority = 7 ∧
    (∀ (path : PyPath) (v : Value) (cfg' : Configuration),
      addEntry initConfiguration path v (some 0) = Except.ok cfg' →
      ∀ q l, lookupStore cfg'.entries_by_path q = some l →
        ∀ x ∈ l, x.priority = forcedPriority) := by
  refine ⟨fun cfg path v => rfl, rfl, ?_⟩
  intro path v cfg' hadd q l hl x hx
  have heval : addEntry initConfiguration path v (some 0) = Except.ok
      { entries_by_path :=
          (getImplicitEntries (mkEntry path forcedPriority v)).foldl addEntryOne [],
        active_priority := forcedPriority } := rfl
  rw [heval] at hadd
  injection hadd with h'
  rw [← h'] at hl
  refine storeAll_foldl (fun x => x.priority = forcedPriority)
    (getImplicitEntries (mkEntry path forcedPriority v)) []
    (fun q' l' hq' => by simp [lookupStore] at hq')
    (fun y hy => ?_) q l hl x hx
  exact (priority_getImplicitEntries (mkEntry path forcedPriority v) y hy).trans rfl

/-- C9 witness: add_entry("a.b", 1, priority=0) on a fresh Configuration
stores the implicit prefix entry at `a` with priority 7. -/
theorem c9_priority_zero_forced_witness :
    ∀ x ∈ entriesAt
      (match addEntry initConfiguration [Key.str "a", Key.str "b"]
          (Value.int 1) (some 0) with
       | Except.ok c => c.entries_by_path
       | Except.error _ => []) [Key.str "a"],
      x.priority = forcedPriority := by
  intro x hx
  exact c9_priority_zero_forced.2.2 [Key.str "a", Key.str "b"] (Value.int 1) _
    rfl [Key.str "a"] _ rfl x hx

/-- C10: get_entry_for_priority pops from the filtered, sorted entry list;
when the queried path has no stored entries (or the defaultdict just created
its empty list), or none of its entries reaches the priority floor, the pop
raises IndexError — no default or sentinel entry is returned (the result is
exactly the IndexError, alongside the post-read store). -/
theorem c10_no_qualifying_entry_indexerror (s : Store) (path : PyPath) (floor : Int)
    (h : (entriesAt s path).filter (fun e => floor ≤ e.priority) = []) :
    getEntryForPriority s path floor =
      (Except.error PyErr.indexError, (filteredSorted s path floor).snd) := by
  have hfs : (filteredSorted s path floor).fst = [] := by
    unfold filteredSorted
    rw [ddAccess_fst, h]
    rfl
  unfold getEntryForPriority
  simp only [hfs, List.reverse_nil]

/-- C10 witness: querying a path absent from an empty store raises
IndexError (and the store gains only the defaultdict's empty list). -/
theorem c10_no_qualifying_entry_indexerror_witness :
    getEntryForPriority ([] : Store) [Key.str "zz"] 0 =
      (Except.error PyErr.indexError,
       (filteredSorted ([] : Store) [Key.str "zz"] 0).snd) :=
  c10_no_qualifying_entry_indexerror [] [Key.str "zz"] 0 rfl
